import Mathlib

/-!
Verification development for the gal-kars repository.

The repository consists of two Python scripts:
* GAL-KARS/2_learn_embs/learn_kge.py - a sweep over knowledge-graph-embedding
  training configurations (model x dimension x dataset x setting x layer count)
  that loads triple files, calls an external embedding library, and persists
  ID maps and embedding matrices.
* GAL-KARS/3_recsys/src/train_dbbook.py - a recommender driver that remaps
  rating tables through a canonical entity index, trains or reloads a scoring
  network per feature configuration, sorts predictions, and writes per-user
  top-5 / top-10 files.

Both scripts are shallowly embedded below: pure data flow becomes Lean
functions, Python dict lookups become association-list lookups, exceptions
become Except / Option values, and the external numeric libraries are modelled
only through the input/output shape the spec assigns to them.
-/

/-! ### Python string ordering

Python sorts strings lexicographically by code point.  The Lean core order on
String is not kernel-reducible, so we embed the same code-point lexicographic
order directly over the character lists. -/

/-- Code-point lexicographic comparison of character lists, as Python compares
strings. -/
def chLe : List Char → List Char → Bool
  | [], _ => true
  | _ :: _, [] => false
  | a :: as, b :: bs =>
    if a.toNat < b.toNat then true
    else if b.toNat < a.toNat then false
    else chLe as bs

/-- The string order used by the Python `sorted` builtin on `str` values. -/
def strLe (a b : String) : Prop := chLe a.data b.data = true

instance : DecidableRel strLe := fun a b => by unfold strLe; infer_instance

instance : IsTotal String strLe :=
  ⟨by
    suffices h : ∀ x y : List Char, chLe x y = true ∨ chLe y x = true by
      intro a b
      exact h a.data b.data
    intro x
    induction x with
    | nil => intro y; left; rfl
    | cons p ps ih =>
      intro y
      cases y with
      | nil => right; rfl
      | cons q qs =>
        rcases Nat.lt_trichotomy p.toNat q.toNat with h | h | h
        · left; simp [chLe, h]
        · rcases ih qs with h3 | h3
          · left; simp [chLe, h, h3]
          · right; simp [chLe, h.symm, h3]
        · right; simp [chLe, h]⟩

instance : IsTrans String strLe :=
  ⟨by
    suffices h : ∀ x y z : List Char,
        chLe x y = true → chLe y z = true → chLe x z = true by
      intro a b c hab hbc
      exact h a.data b.data c.data hab hbc
    intro x
    induction x with
    | nil => intro y z _ _; rfl
    | cons p ps ih =>
      intro y z hab hbc
      cases y with
      | nil => simp [chLe] at hab
      | cons q qs =>
        cases z with
        | nil => simp [chLe] at hbc
        | cons r rs =>
          simp only [chLe] at hab hbc ⊢
          have hab2 : p.toNat < q.toNat
              ∨ (p.toNat = q.toNat ∧ chLe ps qs = true) := by
            by_cases h1 : p.toNat < q.toNat
            · exact Or.inl h1
            · by_cases h2 : q.toNat < p.toNat
              · rw [if_neg h1, if_pos h2] at hab; cases hab
              · exact Or.inr ⟨by omega, by rwa [if_neg h1, if_neg h2] at hab⟩
          have hbc2 : q.toNat < r.toNat
              ∨ (q.toNat = r.toNat ∧ chLe qs rs = true) := by
            by_cases h1 : q.toNat < r.toNat
            · exact Or.inl h1
            · by_cases h2 : r.toNat < q.toNat
              · rw [if_neg h1, if_pos h2] at hbc; cases hbc
              · exact Or.inr ⟨by omega, by rwa [if_neg h1, if_neg h2] at hbc⟩
          rcases hab2 with h | ⟨h, hr⟩ <;> rcases hbc2 with g | ⟨g, gr⟩
          · rw [if_pos (by omega : p.toNat < r.toNat)]
          · rw [if_pos (by omega : p.toNat < r.toNat)]
          · rw [if_pos (by omega : p.toNat < r.toNat)]
          · rw [if_neg (by omega : ¬ p.toNat < r.toNat),
              if_neg (by omega : ¬ r.toNat < p.toNat)]
            exact ih qs rs hr gr⟩

/-! ### Python dictionaries

A Python dict is embedded as an association list in insertion order; lookup of
an absent key is `none` (a `KeyError` at use sites that index directly).
Python dict keys may be of mixed type; in `learn_kge.py` the dict
`setting_kgs` has `str` keys but is indexed with an `int`, so the embedding
keeps the key type explicit. -/

/-- A Python value usable as a dict key in `learn_kge.py`: an int or a str.
Python `8 == "8"` is false, so the two constructors never compare equal. -/
inductive PyKey where
  | int : Nat → PyKey
  | str : String → PyKey
deriving DecidableEq

/-- Association-list lookup, the embedding of a Python dict access
(`none` models a `KeyError` for direct indexing, `NaN` for `Series.map`). -/
def alookup {κ β : Type} [DecidableEq κ] : List (κ × β) → κ → Option β
  | [], _ => none
  | (k, v) :: rest, x => if x = k then some v else alookup rest x

/-! ### learn_kge.py : configuration space (lines 16-33) -/

/-- One embedding-sweep configuration tuple
(emb_model, emb_dim, dataset, setting, n_layer). -/
structure Config where
  embModel : String
  embDim : Nat
  dataset : String
  setting : Nat
  nLayer : Nat
deriving DecidableEq

/-- Source line 16: the dataset list, ml1m and dbbook. -/
def datasets : List String := ["ml1m", "dbbook"]

/-- Source line 17: the embedding model list, CompGCN only. -/
def embModels : List String := ["CompGCN"]

/-- Source line 18: `settings = [8,7,6,5,4,3,2,1]` - Python int literals. -/
def settings : List Nat := [8, 7, 6, 5, 4, 3, 2, 1]

/-- Source line 19: `emb_dims = [64]`. -/
def embDims : List Nat := [64]

/-- Source line 20: `n_layers = [1,2,3]`. -/
def nLayers : List Nat := [1, 2, 3]

/-- Source lines 24-33: `setting_kgs`, a dict with STRING keys
("1" .. "8", in the source listing order 1,2,3,4,5,6,8,7). -/
def settingKgs : List (PyKey × String) :=
  [ (PyKey.str "1", "1_cf"),
    (PyKey.str "2", "2_cf_dbpedia"),
    (PyKey.str "3", "3_cf_llm_i"),
    (PyKey.str "4", "4_cf_llm_u"),
    (PyKey.str "5", "5_cf_llm_iu"),
    (PyKey.str "6", "6_cf_dbpedia_llm_i"),
    (PyKey.str "8", "8_cf_dbpedia_llm_ui"),
    (PyKey.str "7", "7_cf_dbpedia_llm_u") ]

/-- The nested loop order of lines 37-41: model, dim, dataset, setting, layer. -/
def allConfigs : List Config :=
  embModels.flatMap fun m =>
    embDims.flatMap fun k =>
      datasets.flatMap fun d =>
        settings.flatMap fun s =>
          nLayers.map fun l => ⟨m, k, d, s, l⟩

/-- Source line 43: the configuration name used in logs and paths. -/
def printline (c : Config) : String :=
  c.dataset ++ "_setting_" ++ toString c.setting ++ "_" ++ c.embModel ++
    "_k=" ++ toString c.embDim ++ "_l=" ++ toString c.nLayer

/-! ### learn_kge.py : triple files and the embedding pipeline -/

/-- One (head, relation, tail) line of a tab-separated triple file. -/
abbrev Triple := String × String × String

/-- The environment a sweep run executes in: which triple files exist (and
their parsed contents), and whether the external training call raises for a
given configuration. -/
structure SweepEnv where
  files : String → Option (List Triple)
  trainingError : Config → Option String

/-- All entity labels (heads and tails) occurring in a triple list. -/
def headsAndTails (ts : List Triple) : List String :=
  ts.map (fun t => t.1) ++ ts.map (fun t => t.2.2)

/-- All relation labels occurring in a triple list. -/
def relLabels (ts : List Triple) : List String :=
  ts.map (fun t => t.2.1)

/-- Modelled from the spec: the external TriplesFactory assigns a unique dense
index to every distinct entity string of the training file, no collisions and
no gaps; the vocabulary is the sorted list of distinct labels. -/
def entityVocab (ts : List Triple) : List String :=
  (List.insertionSort strLe (headsAndTails ts)).dedup

/-- Modelled from the spec: the relation vocabulary, sorted distinct relation
labels (the inverse-relation augmentation is internal to the library and does
not appear in the exported label map). -/
def relationVocab (ts : List Triple) : List String :=
  (List.insertionSort strLe (relLabels ts)).dedup

/-- Pair each key of a list with its dense index, starting at `i`; the
embedding of `dict(zip(keys, numpy.arange(len(keys))))`. -/
def keyIndexPairs : List String → Nat → List (String × Nat)
  | [], _ => []
  | k :: rest, i => (k, i) :: keyIndexPairs rest (i + 1)

/-- Modelled from the spec: `entity_to_id` of the training TriplesFactory -
each distinct entity gets a dense index 0..N-1, stored in a dict in index
order. -/
def entity_to_id (ts : List Triple) : List (String × Nat) :=
  keyIndexPairs (entityVocab ts) 0

/-- Modelled from the spec: `relation_to_id` of the training TriplesFactory. -/
def relation_to_id (ts : List Triple) : List (String × Nat) :=
  keyIndexPairs (relationVocab ts) 0

/-- The artifacts one successful configuration persists: the two ID-map tables
(lines 101-104, each row a list of cell strings in column order) and the
embedding matrix (lines 111-121, one row per entity; the numeric values are
produced by the opaque external library and are modelled as zeros - only the
shape is part of the contract). -/
structure SweepOutputs where
  entityRows : List (List String)
  relationRows : List (List String)
  embeddingRows : List (List Int)
deriving DecidableEq

/-- The body of the `try` block, lines 60-124: load the training triple file
(raises if missing), load the test file against the training vocabulary
(modelled from the spec: unseen test labels are rejected by the library, not
silently accepted), run the external pipeline (which may raise), and build
the persisted tables.  Any `Except.error` here is caught by the
`except` clause of the sweep. -/
def runBody (env : SweepEnv) (c : Config) (trainPath testPath : String) :
    Except String SweepOutputs :=
  match env.files trainPath with
  | none => .error ("FileNotFoundError: " ++ trainPath)
  | some train =>
    match env.files testPath with
    | none => .error ("FileNotFoundError: " ++ testPath)
    | some test =>
      if (headsAndTails test).all (fun e => (entityVocab train).contains e)
          && (relLabels test).all (fun r => (relationVocab train).contains r) then
        match env.trainingError c with
        | some e => .error e
        | none =>
          .ok { entityRows :=
                  (entity_to_id train).map (fun p => [p.1, toString p.2]),
                relationRows :=
                  (relation_to_id train).map (fun p => [p.1, toString p.2]),
                embeddingRows :=
                  (entityVocab train).map
                    (fun _ => List.replicate c.embDim (0 : Int)) }
      else .error "ValueError: unseen labels in test triples"

/-- One iteration of the sweep loop body, lines 43-131.  Returns the log lines
written for this configuration and, separately, an uncaught exception if one
escaped.  Line 45 writes the Starting line (no space after Starting, as in the
source).  Lines 49-50 index `setting_kgs` with the int-valued `setting`
OUTSIDE the try block: a failed lookup is an uncaught KeyError.  Inside the
try, line 124 logs Completed on success and lines 129-131 log the
configuration name and error message on failure, after which the loop
continues. -/
def configStep (env : SweepEnv) (c : Config) : List String × Option String :=
  let startLog := "Starting" ++ printline c
  match alookup settingKgs (PyKey.int c.setting) with
  | none => ([startLog], some ("KeyError: " ++ toString c.setting))
  | some kg =>
    let trainPath := c.dataset ++ "/setting_" ++ kg ++ "/pykeen_train.tsv"
    let testPath := c.dataset ++ "/setting_" ++ kg ++ "/pykeen_test.tsv"
    match runBody env c trainPath testPath with
    | .ok _ => ([startLog, "Completed"], none)
    | .error e =>
      ([startLog, "An error occoured in " ++ printline c, e], none)

/-- The whole sweep, lines 37-131: run the configurations in loop order,
accumulating log lines; an uncaught exception aborts the remaining
configurations (the interpreter unwinds out of the for loops). -/
def runSweep (env : SweepEnv) : List Config → List String × Option String
  | [] => ([], none)
  | c :: rest =>
    match configStep env c with
    | (logs, some e) => (logs, some e)
    | (logs, none) =>
      let r := runSweep env rest
      (logs ++ r.1, r.2)

/-- A 10-row synthetic training triple file over 5 distinct entities
(a, b, c, d, e) and 2 relations. -/
def sampleTrain : List Triple :=
  [ ("a", "r", "b"), ("a", "r", "c"), ("b", "r", "c"), ("c", "s", "d"),
    ("d", "r", "e"), ("e", "s", "a"), ("b", "s", "d"), ("c", "r", "e"),
    ("d", "s", "b"), ("e", "r", "c") ]

/-- A 3-row synthetic test triple file whose labels all occur in
`sampleTrain`. -/
def sampleTest : List Triple :=
  [ ("a", "r", "d"), ("b", "s", "e"), ("c", "r", "a") ]

/-- An environment in which every triple-file path resolves to valid synthetic
contents and the external training call never raises. -/
def happyEnv : SweepEnv :=
  { files := fun p => if p = "test.tsv" then some sampleTest else some sampleTrain
    trainingError := fun _ => none }

/-- The first configuration the sweep loop reaches:
CompGCN, k=64, dataset ml1m, setting 8, 1 layer. -/
def firstConfig : Config := ⟨"CompGCN", 64, "ml1m", 8, 1⟩


/-! ### train_dbbook.py : canonical entity index (lines 190-201)

`source_features = dict(sorted(pickle.items()))` sorts the embedding-table
keys; `source_mapping = dict(zip(source_features.keys(), arange(N)))` assigns
dense indices in sorted order; `list_mapping = list(source_features)` is the
key list used to map indices back (lines 308-311). -/

/-- The keys of one source embedding table after `dict(sorted(...))`:
the distinct pickle keys in Python sorted order. -/
def sortedKeys (keys : List String) : List String :=
  List.insertionSort strLe keys

/-- The canonical entity index `source_mapping`: sorted keys zipped with
`numpy.arange`, held as a dict in that order. -/
def sourceMappingList (keys : List String) : List (String × Nat) :=
  keyIndexPairs (sortedKeys keys) 0

/-- A rating row (user, item, label) as read from the TSV (line 155-161). -/
abbrev Rating := String × String × Int

/-- Lines 197-201: remap user and item of every rating row through the
canonical index with `Series.map`; a key absent from the mapping dict becomes
a missing value (`NaN`, embedded as `none`) - the row is neither dropped nor
does the call raise. -/
def remapRatings (keys : List String) (rows : List Rating) :
    List (Option Nat × Option Nat × Int) :=
  rows.map fun r =>
    (alookup (sourceMappingList keys) r.1,
     alookup (sourceMappingList keys) r.2.1, r.2.2)

/-! ### train_dbbook.py : prediction sorting (lines 105-148)

`test()` scores all test pairs and runs
`predictions.sort_values(by=["user", "score"], ascending=[True, False])`.
A pandas multi-column sort always uses `numpy.lexsort`, which is stable, so
the result equals sorting by the total key (user asc, score desc, original
row position asc).  The embedding tags each row with its original position
(`List.enum`) and sorts by that total key. -/

/-- One prediction row: user index, item index, model score.  Scores are
compared but never added, so the numeric torch values are embedded as
integers. -/
structure PredRow where
  user : Nat
  item : Nat
  score : Int
deriving DecidableEq

/-- The total order realized by the stable pandas sort on (user asc,
score desc): position in the original frame breaks exact ties. -/
def predLE (a b : Nat × PredRow) : Prop :=
  a.2.user < b.2.user ∨
    (a.2.user = b.2.user ∧
      (b.2.score < a.2.score ∨ (a.2.score = b.2.score ∧ a.1 ≤ b.1)))

instance : DecidableRel predLE := fun a b => by unfold predLE; infer_instance

instance : IsTotal (Nat × PredRow) predLE :=
  ⟨by intro a b; unfold predLE; omega⟩

instance : IsTrans (Nat × PredRow) predLE :=
  ⟨by intro a b c hab hbc; unfold predLE at hab hbc ⊢; omega⟩

/-- Line 146 applied to position-tagged rows: the sorted predictions frame,
each row still carrying its original position. -/
def sortPreds (ps : List PredRow) : List (Nat × PredRow) :=
  List.insertionSort predLE ps.enum

/-! ### train_dbbook.py : per-user top-K (lines 313-321)

`predictions.groupby("user").head(K)` keeps, in frame order, each row whose
rank within its user group is below K. -/

/-- Occurrences of `u` in a list of keys seen so far. -/
def countKey {κ : Type} [DecidableEq κ] (u : κ) : List κ → Nat
  | [] => 0
  | k :: rest => (if k = u then 1 else 0) + countKey u rest

/-- The embedding of `DataFrameGroupBy.head K`: walk the frame in order and
keep a row iff fewer than `K` rows with the same key were kept before it.
`seen` accumulates the keys already passed. -/
def groupHead {α κ : Type} [DecidableEq κ] (K : Nat) (key : α → κ) :
    List α → List κ → List α
  | [], _ => []
  | a :: rest, seen =>
    if countKey (key a) seen < K then a :: groupHead K key rest (key a :: seen)
    else groupHead K key rest (key a :: seen)

/-- Lines 313-318 applied to the sorted predictions: group by user, take the
first K rows of each group.  (Between sorting and grouping the source remaps
user ids through `list_mapping`, an injective relabelling, which leaves the
grouping and row order unchanged; the embedding groups on the user field
directly.) -/
def topKidx (K : Nat) (ps : List PredRow) : List (Nat × PredRow) :=
  groupHead K (fun a => a.2.user) (sortPreds ps) []

/-! ### train_dbbook.py : skip-and-reuse branch (lines 278-302) -/

/-- Source line 278: the force flag is hardcoded to `True`. -/
def sourceForce : Bool := true

/-- What one feature-configuration iteration did: whether the training loop
ran (lines 297-298), whether a saved model was loaded (line 289), whether the
predictions files were written (lines 320-321), and whether the iteration was
skipped by `continue` (line 285). -/
structure DriverStepResult where
  trainInvoked : Bool
  modelLoaded : Bool
  predsWritten : Bool
  skipped : Bool
deriving DecidableEq

/-- The branch structure of lines 280-321 for one feature-configuration:
`if os.path.exists(model_name) and force is False:` - then, if the TOP-5
predictions file already exists (line 283 checks `preds_file_t5` only, never
the top-10 file), `continue`; otherwise load the saved model; else train and
save.  Unless skipped, the model is then evaluated and both the top-5 and the
top-10 files are written (lines 320-321).  Only the top-5 existence bit feeds
the branch; the top-10 file matters solely for what exists afterwards. -/
def driverStep (modelExists force top5Exists : Bool) : DriverStepResult :=
  if modelExists && !force then
    if top5Exists then
      { trainInvoked := false, modelLoaded := false,
        predsWritten := false, skipped := true }
    else
      { trainInvoked := false, modelLoaded := true,
        predsWritten := true, skipped := false }
  else
    { trainInvoked := true, modelLoaded := false,
      predsWritten := true, skipped := false }

/-- Whether the top-5 predictions file exists once the iteration finishes:
it existed before, or line 320 wrote it. -/
def top5ExistsAfter (modelExists force top5Exists : Bool) : Bool :=
  top5Exists || (driverStep modelExists force top5Exists).predsWritten

/-- Whether the top-10 predictions file exists once the iteration finishes:
it existed before, or line 321 wrote it.  The branch taken never depends on
this file, so a skipped iteration leaves a missing top-10 file missing. -/
def top10ExistsAfter (modelExists force top5Exists top10Exists : Bool) :
    Bool :=
  top10Exists || (driverStep modelExists force top5Exists).predsWritten

/-- The feature-configuration loop of lines 235-324: each iteration may raise
(training or evaluation errors are NOT caught anywhere in the loop), and an
exception unwinds out of the for loop, halting the remaining configurations.
Returns the configurations completed in order, or the first uncaught error. -/
def runDriver (step : Nat → Except String DriverStepResult) :
    List Nat → Except String (List Nat)
  | [] => .ok []
  | c :: rest =>
    match step c with
    | .error e => .error e
    | .ok _ =>
      match runDriver step rest with
      | .error e => .error e
      | .ok done => .ok (c :: done)

/-- Witness for C4 on a concrete prediction table. -/
def demoPreds : List PredRow :=
  [⟨0, 1, 5⟩, ⟨0, 2, 7⟩, ⟨1, 3, 6⟩, ⟨0, 4, 7⟩]

/-- The rows of the persisted entity map, `[]` when the configuration
failed. -/
def entityRowsOf : Except String SweepOutputs → List (List String)
  | .ok o => o.entityRows
  | .error _ => []

/-- Modelled from the spec words only, for comparison with the source export:
a 2-column table whose FIRST column is the dense integer id and whose SECOND
column is the textual name. -/
def specIdNameRows (m : List (String × Nat)) : List (List String) :=
  m.map fun p => [toString p.2, p.1]

/-- A step function for the C7 witness: configuration 1 raises, the others
succeed. -/
def demoStep (n : Nat) : Except String DriverStepResult :=
  if n = 1 then Except.error "boom"
  else Except.ok (driverStep true true false)

/-! ### Lemmas about `keyIndexPairs` (dense index assignment) -/

theorem keyIndexPairs_map_fst (l : List String) (s : Nat) :
    (keyIndexPairs l s).map Prod.fst = l := by
  induction l generalizing s with
  | nil => rfl
  | cons k rest ih => simp [keyIndexPairs, ih]

theorem keyIndexPairs_map_snd (l : List String) (s : Nat) :
    (keyIndexPairs l s).map Prod.snd = List.range' s l.length := by
  induction l generalizing s with
  | nil => rfl
  | cons k rest ih => simp [keyIndexPairs, ih, List.range'_succ]

theorem keyIndexPairs_get? (l : List String) (s j : Nat) :
    (keyIndexPairs l s).get? j = (l.get? j).map (fun k => (k, s + j)) := by
  induction l generalizing s j with
  | nil => simp [keyIndexPairs]
  | cons k rest ih =>
    cases j with
    | zero => simp [keyIndexPairs]
    | succ j =>
      simp only [keyIndexPairs, List.get?_cons_succ, ih]
      cases rest.get? j <;> simp <;> omega

theorem alookup_keyIndexPairs (l : List String) :
    ∀ (s : Nat) (k : String), k ∈ l →
      ∃ j, alookup (keyIndexPairs l s) k = some (s + j) ∧ l.get? j = some k := by
  induction l with
  | nil => intro s k h; cases h
  | cons a rest ih =>
    intro s k hmem
    by_cases hk : k = a
    · refine ⟨0, ?_, ?_⟩
      · simp [keyIndexPairs, alookup, hk]
      · simp [hk]
    · have hmem2 : k ∈ rest := by
        rcases List.mem_cons.mp hmem with h | h
        · exact absurd h hk
        · exact h
      obtain ⟨j, h1, h2⟩ := ih (s + 1) k hmem2
      refine ⟨j + 1, ?_, ?_⟩
      · simp only [keyIndexPairs, alookup, if_neg hk]
        rw [h1]; congr 1; omega
      · simpa using h2

theorem alookup_keyIndexPairs_none (l : List String) :
    ∀ (s : Nat) (k : String), k ∉ l → alookup (keyIndexPairs l s) k = none := by
  induction l with
  | nil => intro s k _; rfl
  | cons a rest ih =>
    intro s k habs
    have hk : k ≠ a := fun h => habs (h ▸ List.mem_cons_self a rest)
    have h2 : k ∉ rest := fun h => habs (List.mem_cons_of_mem a h)
    simp only [keyIndexPairs, alookup, if_neg hk]
    exact ih (s + 1) k h2

theorem mem_keyIndexPairs (l : List String) :
    ∀ (s : Nat) (n : String) (i : Nat), (n, i) ∈ keyIndexPairs l s →
      s ≤ i ∧ l.get? (i - s) = some n := by
  induction l with
  | nil => intro s n i h; cases h
  | cons a rest ih =>
    intro s n i hmem
    rcases List.mem_cons.mp hmem with h | h
    · injection h with h1 h2
      subst h1; subst h2
      simp
    · obtain ⟨h1, h2⟩ := ih (s + 1) n i h
      refine ⟨by omega, ?_⟩
      have hi : i - s = (i - (s + 1)) + 1 := by omega
      rw [hi]
      simpa using h2

/-! ### Claim C8 : the canonical entity index and its inverse -/

/-- Claim C8: the canonical entity index assigns dense indices 0..N-1 to the
N keys of the source embedding table in sorted key order, and the back-mapping
`list_mapping` applied after prediction is its inverse: for every key, mapping
the key to its dense index and indexing the key list with that index yields
the original identifier. -/
theorem canonical_index_inverse (keys : List String) (hnd : keys.Nodup) :
    List.Sorted strLe (sortedKeys keys)
    ∧ (sortedKeys keys).Nodup
    ∧ (sourceMappingList keys).map Prod.snd = List.range keys.length
    ∧ ∀ k ∈ keys, ∃ i, alookup (sourceMappingList keys) k = some i
        ∧ (sortedKeys keys).get? i = some k := by
  have hperm : List.Perm (sortedKeys keys) keys :=
    List.perm_insertionSort strLe keys
  refine ⟨List.sorted_insertionSort strLe keys, hperm.nodup_iff.mpr hnd, ?_, ?_⟩
  · rw [sourceMappingList, keyIndexPairs_map_snd, hperm.length_eq,
      List.range_eq_range']
  · intro k hk
    have hk2 : k ∈ sortedKeys keys := hperm.mem_iff.mpr hk
    obtain ⟨j, h1, h2⟩ := alookup_keyIndexPairs (sortedKeys keys) 0 k hk2
    exact ⟨j, by simpa using h1, h2⟩

/-- Witness for C8 on a concrete two-key table. -/
theorem canonical_index_inverse_witness :
    ∃ i, alookup (sourceMappingList ["b", "a"]) "b" = some i
      ∧ (sortedKeys ["b", "a"]).get? i = some "b" := by
  have h := canonical_index_inverse ["b", "a"] (by decide)
  exact h.2.2.2 "b" (by decide)

/-! ### Claim C9 : remapping keeps rows with missing identifiers -/

/-- Claim C9: for every rating row whose user or item identifier is absent
from the canonical entity index, the `Series.map` remapping neither drops the
row nor raises: every row survives at its position with its label unchanged,
and an absent identifier becomes the missing value (`none`, the embedding of
`NaN`). -/
theorem remap_keeps_unmatched_rows (keys : List String) (rows : List Rating) :
    (remapRatings keys rows).length = rows.length
    ∧ ∀ j r, rows.get? j = some r →
        (remapRatings keys rows).get? j =
          some (alookup (sourceMappingList keys) r.1,
                alookup (sourceMappingList keys) r.2.1, r.2.2)
        ∧ (r.1 ∉ keys → alookup (sourceMappingList keys) r.1 = none)
        ∧ (r.2.1 ∉ keys → alookup (sourceMappingList keys) r.2.1 = none) := by
  refine ⟨by simp [remapRatings], ?_⟩
  intro j r hj
  have habs : ∀ k : String, k ∉ keys →
      alookup (sourceMappingList keys) k = none := by
    intro k hk
    refine alookup_keyIndexPairs_none (sortedKeys keys) 0 k ?_
    intro hmem
    exact hk ((List.perm_insertionSort strLe keys).mem_iff.mp hmem)
  refine ⟨?_, habs r.1, habs r.2.1⟩
  rw [remapRatings, List.get?_map, hj]
  rfl

/-- Witness for C9: a row whose user id is absent from the index survives with
a missing user and its item and label intact. -/
theorem remap_keeps_unmatched_rows_witness :
    (remapRatings ["a"] [("b", "a", 1)]).length = 1
    ∧ alookup (sourceMappingList ["a"]) "b" = none := by
  have h := remap_keeps_unmatched_rows ["a"] [("b", "a", 1)]
  exact ⟨h.1.trans (by decide), (h.2 0 ("b", "a", 1) (by decide)).2.1 (by decide)⟩

/-! ### Lemmas about the stable prediction sort -/

theorem sortPreds_perm (ps : List PredRow) :
    ((sortPreds ps).map Prod.snd).Perm ps := by
  have h := (List.perm_insertionSort predLE ps.enum).map Prod.snd
  rwa [List.enum_map_snd] at h

theorem sortPreds_sorted (ps : List PredRow) :
    (sortPreds ps).Pairwise predLE :=
  List.sorted_insertionSort predLE ps.enum

theorem sortPreds_fst_nodup (ps : List PredRow) :
    ((sortPreds ps).map Prod.fst).Nodup := by
  have h := (List.perm_insertionSort predLE ps.enum).map Prod.fst
  rw [List.enum_map_fst] at h
  exact h.nodup_iff.mpr (List.nodup_range ps.length)

theorem sortPreds_filter_length (ps : List PredRow) (u : Nat) :
    ((sortPreds ps).filter (fun a => decide (a.2.user = u))).length
      = (ps.filter (fun p => decide (p.user = u))).length := by
  have hperm :=
    List.Perm.filter (fun p => decide (p.user = u)) (sortPreds_perm ps)
  have hmap :
      List.filter (fun p => decide (p.user = u)) ((sortPreds ps).map Prod.snd)
        = ((sortPreds ps).filter (fun a => decide (a.2.user = u))).map
            Prod.snd := by
    rw [List.filter_map]
    rfl
  rw [hmap] at hperm
  have := hperm.length_eq
  simpa using this

/-! ### Claim C3 : the evaluation step emits a stably sorted table -/

/-- Claim C3: the predictions table produced by `test()` is a permutation of
the scored rows, sorted by user ascending and, within a user, by score
descending, and rows with equal user and equal score keep their original
relative order (each row carries its original position as the first
component; those positions are pairwise distinct). -/
theorem predictions_sorted_stable (ps : List PredRow) :
    ((sortPreds ps).map Prod.snd).Perm ps
    ∧ ((sortPreds ps).map Prod.fst).Nodup
    ∧ (sortPreds ps).Pairwise (fun a b =>
        a.2.user ≤ b.2.user
        ∧ (a.2.user = b.2.user → b.2.score ≤ a.2.score)
        ∧ (a.2.user = b.2.user → a.2.score = b.2.score → a.1 < b.1)) := by
  refine ⟨sortPreds_perm ps, sortPreds_fst_nodup ps, ?_⟩
  have hne : (sortPreds ps).Pairwise (fun a b => a.1 ≠ b.1) :=
    List.pairwise_map.mp (sortPreds_fst_nodup ps)
  have hcomb := (sortPreds_sorted ps).and hne
  refine hcomb.imp ?_
  intro a b hab
  obtain ⟨hle, hne2⟩ := hab
  unfold predLE at hle
  refine ⟨by omega, fun h => by omega, fun h h2 => by omega⟩

/-! ### Lemmas about per-user group heads -/

theorem filter_groupHead {α κ : Type} [DecidableEq κ] (K : Nat) (key : α → κ)
    (u : κ) :
    ∀ (l : List α) (seen : List κ),
      (groupHead K key l seen).filter (fun a => decide (key a = u))
        = (l.filter (fun a => decide (key a = u))).take
            (K - countKey u seen) := by
  intro l
  induction l with
  | nil => intro seen; simp [groupHead]
  | cons a rest ih =>
    intro seen
    rcases eq_or_ne (key a) u with hk | hk
    · subst hk
      have hcount : countKey (key a) (key a :: seen)
          = 1 + countKey (key a) seen := by
        simp [countKey]
      by_cases hlt : countKey (key a) seen < K
      · rw [groupHead, if_pos hlt, List.filter_cons, if_pos (by simp),
          List.filter_cons, if_pos (by simp), ih, hcount]
        have hKc : K - countKey (key a) seen
            = (K - (1 + countKey (key a) seen)) + 1 := by omega
        rw [hKc, List.take_succ_cons]
      · rw [groupHead, if_neg hlt, List.filter_cons, if_pos (by simp), ih,
          hcount]
        have h0 : K - (1 + countKey (key a) seen) = 0 := by omega
        have h0b : K - countKey (key a) seen = 0 := by omega
        rw [h0, h0b, List.take_zero, List.take_zero]
    · have hcount : countKey u (key a :: seen) = countKey u seen := by
        simp [countKey, hk]
      have hpa : (decide (key a = u)) = false := by simp [hk]
      by_cases hlt : countKey (key a) seen < K
      · rw [groupHead, if_pos hlt, List.filter_cons, if_neg (by simp [hk]),
          List.filter_cons, if_neg (by simp [hk]), ih, hcount]
      · rw [groupHead, if_neg hlt, List.filter_cons, if_neg (by simp [hk]),
          ih, hcount]

/-! ### Claim C4 : per-user top-K returns the K highest-scored rows -/

/-- Claim C4: for any prediction rows, grouping the sorted predictions by
user and taking the head K (the source uses K = 5 and K = 10) keeps, for
every user, exactly the first K rows of that user in the sorted order - at
most K rows, fewer when the user has fewer scored rows - and every row of
that user left out scores no higher than any kept row, equal scores being
resolved in favour of the earlier original row. -/
theorem topK_exact (K : Nat) (ps : List PredRow) (u : Nat) :
    (topKidx K ps).filter (fun a => decide (a.2.user = u))
      = ((sortPreds ps).filter (fun a => decide (a.2.user = u))).take K
    ∧ ((topKidx K ps).filter (fun a => decide (a.2.user = u))).length
      = min K (ps.filter (fun p => decide (p.user = u))).length
    ∧ ∀ a ∈ (topKidx K ps).filter (fun a => decide (a.2.user = u)),
        ∀ b ∈ (sortPreds ps).filter (fun a => decide (a.2.user = u)),
          b ∉ (topKidx K ps).filter (fun a => decide (a.2.user = u)) →
            b.2.score < a.2.score
            ∨ (b.2.score = a.2.score ∧ a.1 ≤ b.1) := by
  have hfg := filter_groupHead K (fun a : Nat × PredRow => a.2.user) u
    (sortPreds ps) []
  have hmain : (topKidx K ps).filter (fun a => decide (a.2.user = u))
      = ((sortPreds ps).filter (fun a => decide (a.2.user = u))).take K := by
    rw [topKidx]
    simpa using hfg
  refine ⟨hmain, ?_, ?_⟩
  · rw [hmain, List.length_take, sortPreds_filter_length]
  · intro a ha b hb hbn
    rw [hmain] at ha hbn
    have hsor := List.Pairwise.filter
      (fun a : Nat × PredRow => decide (a.2.user = u)) (sortPreds_sorted ps)
    have hsplit := List.take_append_drop K
      ((sortPreds ps).filter (fun a => decide (a.2.user = u)))
    rw [← hsplit] at hsor
    obtain ⟨-, -, hcross⟩ := List.pairwise_append.mp hsor
    have hbd : b ∈ ((sortPreds ps).filter
        (fun a => decide (a.2.user = u))).drop K := by
      rcases List.mem_append.mp (hsplit ▸ hb) with h | h
      · exact absurd h hbn
      · exact h
    have hle := hcross a ha b hbd
    have hua : a.2.user = u := by
      have := List.mem_filter.mp (List.mem_of_mem_take ha)
      simpa using this.2
    have hub : b.2.user = u := by
      have := List.mem_filter.mp hb
      simpa using this.2
    unfold predLE at hle
    omega

/-- Witness for C4: with K = 2, user 0 keeps exactly 2 of its 3 rows. -/
theorem topK_exact_witness :
    ((topKidx 2 demoPreds).filter (fun a => decide (a.2.user = 0))).length
      = 2 := by
  have h := topK_exact 2 demoPreds 0
  rw [h.2.1]
  decide

/-! ### Claim C10 : the top-5 file is a per-user prefix of the top-10 file -/

/-- Claim C10: for every user, the rows kept by the head-5 grouping are
exactly the first (up to) five rows that user has in the head-10 grouping,
in the same order. -/
theorem top5_per_user_prefix_of_top10 (ps : List PredRow) (u : Nat) :
    (topKidx 5 ps).filter (fun a => decide (a.2.user = u))
      = ((topKidx 10 ps).filter (fun a => decide (a.2.user = u))).take 5 := by
  have h5 : (topKidx 5 ps).filter (fun a => decide (a.2.user = u))
      = ((sortPreds ps).filter (fun a => decide (a.2.user = u))).take 5 := by
    rw [topKidx]
    simpa using filter_groupHead 5 (fun a : Nat × PredRow => a.2.user) u
      (sortPreds ps) []
  have h10 : (topKidx 10 ps).filter (fun a => decide (a.2.user = u))
      = ((sortPreds ps).filter (fun a => decide (a.2.user = u))).take 10 := by
    rw [topKidx]
    simpa using filter_groupHead 10 (fun a : Nat × PredRow => a.2.user) u
      (sortPreds ps) []
  rw [h5, h10, List.take_take]
  norm_num

/-! ### Structure of a successful try block -/

theorem runBody_ok_elim (env : SweepEnv) (c : Config) (tp tq : String)
    (train : List Triple) (o : SweepOutputs)
    (hf : env.files tp = some train)
    (hok : runBody env c tp tq = Except.ok o) :
    o = { entityRows :=
            (entity_to_id train).map (fun p => [p.1, toString p.2]),
          relationRows :=
            (relation_to_id train).map (fun p => [p.1, toString p.2]),
          embeddingRows :=
            (entityVocab train).map
              (fun _ => List.replicate c.embDim (0 : Int)) } := by
  simp only [runBody, hf] at hok
  split at hok
  · exact Except.noConfusion hok
  · split at hok
    · split at hok
      · exact Except.noConfusion hok
      · injection hok with h
        exact h.symm
    · exact Except.noConfusion hok

/-- The external pipeline model keeps the spec contract: one embedding row
per distinct training entity. -/
theorem runBody_embedding_row_count (env : SweepEnv) (c : Config)
    (tp tq : String) (train : List Triple) (o : SweepOutputs)
    (hf : env.files tp = some train)
    (hok : runBody env c tp tq = Except.ok o) :
    o.embeddingRows.length = (entityVocab train).length := by
  rw [runBody_ok_elim env c tp tq train o hf hok]
  simp

/-- Inside one sweep iteration the only uncaught exception is the KeyError
from the `setting_kgs` lookup of line 49; every error of the try block is
caught and turned into log lines. -/
theorem configStep_only_uncaught_is_key_lookup (env : SweepEnv) (c : Config) :
    (configStep env c).2 = none
    ∨ (configStep env c).2 = some ("KeyError: " ++ toString c.setting) := by
  cases h : alookup settingKgs (PyKey.int c.setting) with
  | none => right; simp [configStep, h]
  | some kg =>
    left
    simp only [configStep, h]
    rcases hrb : runBody env c
        (c.dataset ++ "/setting_" ++ kg ++ "/pykeen_train.tsv")
        (c.dataset ++ "/setting_" ++ kg ++ "/pykeen_test.tsv")
      with e | o <;> simp [hrb]

/-! ### Claim C1 : failure isolation of the embedding sweep -/

/-- Claim C1 fails on the code: even in an environment where every triple
file is present and valid and the external training never raises, the very
first configuration raises an uncaught KeyError at the `setting_kgs[setting]`
lookup of line 49 - the int-valued setting is looked up in a str-keyed dict,
OUTSIDE the try block - and the whole sweep aborts with only the first
Starting log line written: a single configuration failure does abort the
sweep. -/
theorem sweep_aborted_by_first_configuration :
    (runSweep happyEnv allConfigs).2 = some "KeyError: 8"
    ∧ (runSweep happyEnv allConfigs).1
        = ["Startingml1m_setting_8_CompGCN_k=64_l=1"] := by
  constructor
  · decide
  · decide

/-! ### Claim C2 : a valid configuration cannot complete -/

/-- Claim C2 fails on the code: the first configuration of the sweep, run in
an environment where every path resolves to a valid synthetic triple file,
still ends in the uncaught KeyError of line 49 before any triple file is
read, so the configuration never completes and no embedding matrix is
produced. -/
theorem valid_files_cannot_complete_first_configuration :
    allConfigs.head? = some firstConfig
    ∧ (configStep happyEnv firstConfig).2 = some "KeyError: 8" := by
  constructor
  · decide
  · decide

/-! ### Claim C5 : the persisted ID-map column order -/

/-- Counterexample to claim C5: on a successfully trained configuration the
exported entity map rows do not have the id in the first column - the source
writes `dict.items()` pairs, namely (name, id). -/
theorem entity_map_export_counterexample :
    (runBody happyEnv firstConfig "train.tsv" "test.tsv").isOk = true
    ∧ entityRowsOf (runBody happyEnv firstConfig "train.tsv" "test.tsv")
        ≠ specIdNameRows (entity_to_id sampleTrain) := by
  constructor
  · decide
  · decide

theorem map_rows_get (l : List String) (n : String) (i : Nat)
    (hmem : (n, i) ∈ keyIndexPairs l 0) :
    ((keyIndexPairs l 0).map (fun p => [p.1, toString p.2])).get? i
      = some [n, toString i] := by
  obtain ⟨-, hget⟩ := mem_keyIndexPairs l 0 n i hmem
  rw [Nat.sub_zero] at hget
  rw [List.get?_map, keyIndexPairs_get?, hget]
  simp

/-- Claim C5 amended: for every successfully trained configuration the
persisted entity-ID and relation-ID maps are 2-column tables in vocabulary
(insertion) order, but with the TEXTUAL NAME in the first column and the
dense integer index in the second: the row at position i is the pair mapped
to index i, rendered as [name, i]. -/
theorem id_maps_are_name_then_id (env : SweepEnv) (c : Config)
    (tp tq : String) (train : List Triple) (o : SweepOutputs)
    (hf : env.files tp = some train)
    (hok : runBody env c tp tq = Except.ok o) :
    (∀ n i, (n, i) ∈ entity_to_id train →
        o.entityRows.get? i = some [n, toString i])
    ∧ (∀ n i, (n, i) ∈ relation_to_id train →
        o.relationRows.get? i = some [n, toString i]) := by
  rw [runBody_ok_elim env c tp tq train o hf hok]
  constructor
  · intro n i hmem
    exact map_rows_get (entityVocab train) n i hmem
  · intro n i hmem
    exact map_rows_get (relationVocab train) n i hmem

/-- Witness for the amended C5: in the synthetic run, entity a has index 0
and its exported row is [a, 0]. -/
theorem id_maps_are_name_then_id_witness :
    ∃ o, runBody happyEnv firstConfig "train.tsv" "test.tsv" = Except.ok o
      ∧ o.entityRows.get? 0 = some ["a", toString 0] := by
  cases hrb : runBody happyEnv firstConfig "train.tsv" "test.tsv" with
  | error e =>
    exfalso
    have hok : (runBody happyEnv firstConfig "train.tsv" "test.tsv").isOk
        = true := by decide
    rw [hrb] at hok
    simp [Except.isOk, Except.toBool] at hok
  | ok o =>
    refine ⟨o, rfl, ?_⟩
    exact (id_maps_are_name_then_id happyEnv firstConfig "train.tsv"
      "test.tsv" sampleTrain o (by decide) hrb).1 "a" 0 (by decide)

/-! ### Claim C6 : the skip-and-reuse branch of the recommender driver -/

/-- Counterexample to claim C6 as stated: with the model artifact present,
the force flag false, and the top-5 predictions file also present, the
iteration hits `continue` at line 285 - the saved model is NOT loaded and
nothing is evaluated or written, so a top-10 file that was absent in that
state is still absent afterwards.  This contradicts both parts of the claim:
the driver neither loads and reuses the saved model nor produces the
predictions files in that state. -/
theorem reuse_branch_skips_without_loading :
    (driverStep true false true).modelLoaded = false
    ∧ (driverStep true false true).skipped = true
    ∧ (driverStep true false true).trainInvoked = false
    ∧ top10ExistsAfter true false true false = false := by
  decide

/-- Claim C6 amended: when the trained model file exists and the force flag
is false, the training loop is never invoked; if the top-5 predictions file
does not already exist, the saved model is loaded and both predictions files
are written, so both exist afterwards; if the top-5 file already exists, the
iteration is skipped entirely - nothing is loaded or written, and the top-10
file keeps whatever state it had, because the skip guard of line 283 checks
only the top-5 file.  (The source hardcodes force = True at line 278; the
flag is a parameter of the embedding.) -/
theorem reuse_policy_no_retrain
    (modelExists force top5Exists top10Exists : Bool)
    (hm : modelExists = true) (hf : force = false) :
    (driverStep modelExists force top5Exists).trainInvoked = false
    ∧ (top5Exists = false →
        (driverStep modelExists force top5Exists).modelLoaded = true
        ∧ (driverStep modelExists force top5Exists).predsWritten = true
        ∧ top5ExistsAfter modelExists force top5Exists = true
        ∧ top10ExistsAfter modelExists force top5Exists top10Exists = true)
    ∧ (top5Exists = true →
        (driverStep modelExists force top5Exists).skipped = true
        ∧ (driverStep modelExists force top5Exists).predsWritten = false
        ∧ top10ExistsAfter modelExists force top5Exists top10Exists
            = top10Exists) := by
  subst hm; subst hf
  cases top5Exists <;> cases top10Exists <;>
    simp [driverStep, top5ExistsAfter, top10ExistsAfter]

/-- Witness for the amended C6 at the concrete state (model present, force
false, neither predictions file present). -/
theorem reuse_policy_no_retrain_witness :
    (driverStep true false false).trainInvoked = false
    ∧ (driverStep true false false).modelLoaded = true
    ∧ top10ExistsAfter true false false false = true := by
  have h := reuse_policy_no_retrain true false false false rfl rfl
  exact ⟨h.1, (h.2.1 rfl).1, (h.2.1 rfl).2.2.2⟩

/-! ### Claim C7 : the recommender driver has no failure isolation -/

/-- Claim C7: an exception in one feature-configuration of the recommender
driver is not caught at the configuration level: the loop result is that
error, and the remaining configurations are never processed - the run result
does not depend on what comes after the failing configuration. -/
theorem driver_error_halts_remaining
    (step : Nat → Except String DriverStepResult)
    (xs : List Nat) (c : Nat) (ys : List Nat) (e : String)
    (hok : ∀ x ∈ xs, ∃ r, step x = Except.ok r)
    (hc : step c = Except.error e) :
    runDriver step (xs ++ c :: ys) = Except.error e
    ∧ runDriver step (xs ++ c :: ys) = runDriver step (xs ++ [c]) := by
  induction xs with
  | nil =>
    constructor
    · simp [runDriver, hc]
    · simp [runDriver, hc]
  | cons x xs ih =>
    obtain ⟨r, hr⟩ := hok x (List.mem_cons_self x xs)
    have ih2 := ih (fun y hy => hok y (List.mem_cons_of_mem x hy))
    have h1 : runDriver step (xs ++ [c]) = Except.error e :=
      ih2.2.symm.trans ih2.1
    constructor
    · simp [runDriver, hr, ih2.1]
    · simp [runDriver, hr, ih2.1, h1]

/-- Witness for C7: with four configurations and a failure at the second,
the driver run ends in that error. -/
theorem driver_error_halts_remaining_witness :
    runDriver demoStep [0, 1, 2, 3] = Except.error "boom" := by
  have h := driver_error_halts_remaining demoStep [0] 1 [2, 3] "boom"
    (by
      intro x hx
      simp at hx
      subst hx
      exact ⟨driverStep true true false, rfl⟩)
    (by rfl)
  simpa using h.1
